import Mathlib

/-!
Verification of the rq-manager front-end data layer
(src/front/src/services/jobsService.ts, src/front/src/services/queues/queuesService.ts,
src/front/src/utils/cache.ts) against its natural-language specification.

The TypeScript source is shallowly embedded: each relevant function becomes a
computable Lean definition over explicit data; asynchronous outcomes become
Except values; JavaScript object parameter sets become association lists over a
small JS-value type.
-/

namespace RqManager

/-- A job record as used by the aggregation layer. Only the fields the layer
reads are modelled: the record identifier, the creation timestamp (the value of
new Date(created_at).getTime(), an integer number of milliseconds), and the
queue name. -/
structure Job where
  id : String
  created_at : Int
  queue : Option String := none
  deriving DecidableEq, Repr

/-- The page object returned by the useJobs query function
(jobsService.ts, the return value of each branch of queryFn). -/
structure JobsPage where
  data : List Job
  total : Int
  offset : Nat
  limit : Nat
  has_more : Bool
  deriving DecidableEq, Repr

/-- One backend envelope for a single queue partition, as consumed by the
multi-queue branch of useJobs: response.data.data and response.data.total. -/
structure PartitionResponse where
  data : List Job
  total : Int
  deriving DecidableEq, Repr

/-- Insert a job into a list sorted descending by created_at, placing it after
every element whose timestamp is greater than or equal to its own. -/
def insertByCreatedDesc (x : Job) : List Job → List Job
  | [] => [x]
  | y :: ys =>
      if y.created_at < x.created_at then x :: y :: ys
      else y :: insertByCreatedDesc x ys

/-- The sort in the multi-queue branch of useJobs:
allJobs.sort((a, b) => new Date(b.created_at).getTime() - new Date(a.created_at).getTime()).
JavaScript Array.prototype.sort is stable, and a stable sort by a total
preorder is uniquely determined by its comparator, so this stable insertion
sort (left fold, each element inserted after all elements comparing greater or
equal) computes the same list. -/
def sortByCreatedDesc (l : List Job) : List Job :=
  l.foldl (fun acc x => insertByCreatedDesc x acc) []

/-- The merge step of the multi-queue branch of useJobs
(jobsService.ts lines 86-101): concatenate all partition payloads, sum the
partition totals, sort descending by created_at, slice at
[offset, offset + limit), and report has_more as endIndex < sortedJobs.length. -/
def mergeQueuePages (offset limit : Nat) (responses : List PartitionResponse) :
    JobsPage :=
  let allJobs := (responses.map PartitionResponse.data).flatten
  let totalJobs := (responses.map PartitionResponse.total).sum
  let sortedJobs := sortByCreatedDesc allJobs
  let startIndex := offset
  let endIndex := startIndex + limit
  let paginatedJobs := (sortedJobs.drop startIndex).take limit
  { data := paginatedJobs
    total := totalJobs
    offset := offset
    limit := limit
    has_more := decide (endIndex < sortedJobs.length) }

/-- A failed fetch outcome (a rejected axios promise). -/
inductive FetchError where
  | transport (msg : String)
  deriving DecidableEq, Repr

/-- The semantics of Promise.all over settled outcomes: if every element
resolved, resolve with the list of values; if any element rejected, reject
(fail-fast) and produce no partial list. -/
def promiseAll {α : Type} : List (Except FetchError α) → Except FetchError (List α)
  | [] => .ok []
  | .error e :: _ => .error e
  | .ok v :: rest => (promiseAll rest).map (v :: ·)

/-- The whole multi-queue branch of the useJobs query function
(jobsService.ts lines 73-101), given the settled outcome of each per-queue
request: await Promise.all of the partition requests, then merge. If any
partition rejected, the query function itself rejects. -/
def multiQueueQuery (offset limit : Nat)
    (outcomes : List (Except FetchError PartitionResponse)) :
    Except FetchError JobsPage :=
  (promiseAll outcomes).map (mergeQueuePages offset limit)

/-- A JavaScript value as it appears in a parameter object: undefined, a
string, or a number. (null and nested values are not needed by the
parameter objects modelled here.) -/
inductive JsVal where
  | undefined
  | str (s : String)
  | num (n : Int)
  deriving DecidableEq, Repr

/-- A JavaScript object modelled as an association list of fields in
insertion order. -/
abbrev JsObj := List (String × JsVal)

/-- Insert a field into a list of fields sorted ascending by name, after all
fields with a smaller-or-equal name. -/
def insertFieldByName (x : String × JsVal) : JsObj → JsObj
  | [] => [x]
  | y :: ys => if x.1 < y.1 then x :: y :: ys else y :: insertFieldByName x ys

/-- Sort an object's fields ascending by field name (stable). -/
def sortFieldsByName (o : JsObj) : JsObj :=
  o.foldl (fun acc x => insertFieldByName x acc) []

/-- Modelled from the spec's Query Key Registry boundary: the cache is the
external TanStack QueryClient (src/front/src/utils/cache.ts only constructs
it), whose default key hash is JSON.stringify with object keys sorted;
JSON.stringify drops fields whose value is undefined. Two parameter objects
collide in the cache exactly when these canonical field lists are equal. -/
def canonicalFields (o : JsObj) : JsObj :=
  sortFieldsByName (o.filter (fun p => p.2 ≠ JsVal.undefined))

/-- The query key derivation at the useJobs call site
(jobsService.ts line 40: queryKey is the two-element array of the constant
tag and the raw params object), composed with the cache's canonical hash. -/
def keyOf (tag : String) (params : JsObj) : String × JsObj :=
  (tag, canonicalFields params)

/-- The queue field of JobsQueryParams: string, string array, or null/absent
(pages/Jobs/types.ts: queue may be a string, a string array, or null). -/
inductive QueueFilter where
  | noFilter
  | single (s : String)
  | multi (l : List String)
  deriving DecidableEq, Repr

/-- JobsQueryParams (pages/Jobs/types.ts): the parameters of useJobs. Optional
string fields are Option String, where some of an empty string models an
explicitly-empty (falsy) value. -/
structure JobsQueryParams where
  limit : Nat
  offset : Nat
  queue : QueueFilter := .noFilter
  status : Option String := none
  worker : Option String := none
  function : Option String := none
  search : Option String := none
  created_after : Option String := none
  created_before : Option String := none
  sort_by : Option String := none
  sort_order : Option String := none
  deriving DecidableEq, Repr

/-- JavaScript truthiness of an optional string: null/undefined and the empty
string are falsy. -/
def truthyStr : Option String → Bool
  | none => false
  | some s => s ≠ ""

/-- The value of the expression (x || undefined) for an optional string. -/
def orUndef (x : Option String) : JsVal :=
  match x with
  | some s => if s = "" then .undefined else .str s
  | none => .undefined

/-- An optional string as a JavaScript value (undefined when absent). -/
def optStr (x : Option String) : JsVal :=
  match x with
  | some s => .str s
  | none => .undefined

/-- transformQueryParams (jobsService.ts lines 11-37): builds the apiParams
object from the frontend params and an optional queue name, in field insertion
order; string filters are normalised with (... || undefined), the queue field
is added only when the queue argument is truthy, the created_after/
created_before pair is added when either is truthy, and the sort_by/sort_order
pair is added when either is truthy. -/
def transformQueryParams (params : JobsQueryParams) (queue : Option String) :
    JsObj :=
  [("limit", .num params.limit),
   ("offset", .num params.offset),
   ("status", orUndef params.status),
   ("worker", orUndef params.worker),
   ("function", orUndef params.function),
   ("search", orUndef params.search)]
  ++ (match queue with
      | some q => if q = "" then [] else [("queue", JsVal.str q)]
      | none => [])
  ++ (if truthyStr params.created_after || truthyStr params.created_before then
        [("created_after", optStr params.created_after),
         ("created_before", optStr params.created_before)]
      else [])
  ++ (if truthyStr params.sort_by || truthyStr params.sort_order then
        [("sort_by", optStr params.sort_by),
         ("sort_order", optStr params.sort_order)]
      else [])

/-- One physical HTTP request issued by the query function. -/
structure ApiRequest where
  path : String
  params : JsObj
  deriving DecidableEq, Repr

/-- The partition set computed at the top of the useJobs query function
(jobsService.ts line 43): an array is filtered by Boolean, a truthy string
becomes a singleton, anything else gives the empty list. -/
def effectiveQueues (p : JobsQueryParams) : List String :=
  match p.queue with
  | .multi l => l.filter (fun s => s ≠ "")
  | .single s => if s = "" then [] else [s]
  | .noFilter => []

/-- The physical requests issued by the useJobs query function
(jobsService.ts lines 43-84): zero partitions route to one unfiltered request,
one partition to one filtered request, and several partitions to one request
per queue, each with limit Math.ceil(limit / queues.length). -/
def useJobsRequests (p : JobsQueryParams) : List ApiRequest :=
  match effectiveQueues p with
  | [] => [⟨"/jobs", transformQueryParams p none⟩]
  | [q] => [⟨"/jobs", transformQueryParams p (some q)⟩]
  | queues =>
      queues.map fun q =>
        ⟨"/jobs",
         transformQueryParams
           { p with limit := (p.limit + queues.length - 1) / queues.length }
           (some q)⟩

/-- A queue record as consumed by the queues list query; only identity is
needed here, the payload is opaque to the layer. -/
structure Queue where
  name : String
  deriving DecidableEq, Repr

/-- The backend envelope for the queues list endpoint as read by useQueues:
response.data.data (possibly null or absent) together with whatever total and
has_more the backend reports. -/
structure QueuesEnvelope where
  data : Option (List Queue)
  total : Int
  has_more : Bool
  deriving DecidableEq, Repr

/-- The page object returned by useQueues. -/
structure QueuesPage where
  data : List Queue
  total : Nat
  offset : Nat
  limit : Nat
  has_more : Bool
  deriving DecidableEq, Repr

/-- The value of (x || d) for an optional number: null/undefined and 0 are
falsy, so they yield the fallback. -/
def jsOrNat (x : Option Nat) (d : Nat) : Nat :=
  match x with
  | some n => if n = 0 then d else n
  | none => d

/-- The useQueues query function (queuesService.ts lines 30-52): read
response.data.data with a fallback to the empty array, then return a page
whose total is the length of that array, whose offset and limit are
params.offset || 0 and params.limit || 50, and whose has_more is false. -/
def useQueuesQueryFn (paramsOffset paramsLimit : Option Nat)
    (resp : QueuesEnvelope) : QueuesPage :=
  let queues := resp.data.getD []
  { data := queues
    total := queues.length
    offset := jsOrNat paramsOffset 0
    limit := jsOrNat paramsLimit 50
    has_more := false }

/-- Modelled from the spec: the cache entry of the external TanStack
QueryClient (src/front/src/utils/cache.ts only constructs the client).
Per the spec's CacheEntry, the entry carries a sequence counter incremented on
every fetch attempt for the key, and the last committed data. -/
structure CacheEntry (α : Type) where
  sequence : Nat
  data : Option α
  deriving DecidableEq, Repr

/-- Modelled from the spec: starting a fetch attempt increments the entry's
sequence; the attempt is tagged with the new sequence number. -/
def startFetch {α : Type} (e : CacheEntry α) : CacheEntry α :=
  { e with sequence := e.sequence + 1 }

/-- Modelled from the spec: commit writes the result only when the attempt's
sequence number matches the entry's current sequence, and otherwise discards
the result silently. -/
def commit {α : Type} (e : CacheEntry α) (seq : Nat) (result : α) :
    CacheEntry α :=
  if seq = e.sequence then { e with data := some result } else e

/-- The query-key tag constants of jobsService.ts. -/
def JOBS_QUERY_KEY : String := "jobs"

/-- The job-counts query-key tag constant of jobsService.ts. -/
def JOB_COUNTS_QUERY_KEY : String := "job-counts"

/-- The statically declared invalidation targets of useCancelJob
(jobsService.ts lines 189-193): the jobs list tag, the specific job's detail
key, and the job-counts tag, each an invalidateQueries key argument. -/
def cancelJobInvalidations (jobId : String) : List (List String) :=
  [[JOBS_QUERY_KEY], [JOBS_QUERY_KEY, jobId], [JOB_COUNTS_QUERY_KEY]]

/-- The useCancelJob mutation (jobsService.ts lines 182-196), given the
settled outcome of its network call: onSuccess (and hence invalidation) runs
only when the mutationFn resolved; a rejection is surfaced unchanged with no
invalidation. The onSuccess-after-resolution ordering is the documented
behaviour of the external useMutation, as the spec states it. -/
def runCancelJob {α : Type} (outcome : Except FetchError α) (jobId : String) :
    Except FetchError α × List (List String) :=
  match outcome with
  | .ok b => (.ok b, cancelJobInvalidations jobId)
  | .error e => (.error e, [])

/-! ## Helper lemmas -/

theorem promiseAll_error_of_mem {α : Type} (l : List (Except FetchError α))
    (e : FetchError) (h : Except.error e ∈ l) :
    ∃ e2, promiseAll l = Except.error e2 := by
  induction l with
  | nil => cases h
  | cons x xs ih =>
    cases x with
    | error e3 => exact ⟨e3, rfl⟩
    | ok v =>
      rcases List.mem_cons.mp h with h1 | h2
      · exact absurd h1 (by simp)
      · obtain ⟨e2, he⟩ := ih h2
        exact ⟨e2, by simp [promiseAll, he, Except.map]⟩

theorem mem_insertByCreatedDesc (z x : Job) (l : List Job) :
    z ∈ insertByCreatedDesc x l ↔ z = x ∨ z ∈ l := by
  induction l with
  | nil => simp [insertByCreatedDesc]
  | cons y ys ih =>
    rw [insertByCreatedDesc]
    by_cases hlt : y.created_at < x.created_at
    · rw [if_pos hlt]; simp
    · rw [if_neg hlt]; simp [ih]; tauto

theorem pairwise_insertByCreatedDesc (x : Job) (l : List Job)
    (h : l.Pairwise (fun a b => b.created_at ≤ a.created_at)) :
    (insertByCreatedDesc x l).Pairwise
      (fun a b => b.created_at ≤ a.created_at) := by
  induction l with
  | nil => simp [insertByCreatedDesc]
  | cons y ys ih =>
    rcases List.pairwise_cons.mp h with ⟨hy, hys⟩
    rw [insertByCreatedDesc]
    by_cases hlt : y.created_at < x.created_at
    · rw [if_pos hlt]
      refine List.pairwise_cons.mpr ⟨?_, h⟩
      intro z hz
      rcases List.mem_cons.mp hz with rfl | hz2
      · exact le_of_lt hlt
      · exact le_trans (hy z hz2) (le_of_lt hlt)
    · rw [if_neg hlt]
      refine List.pairwise_cons.mpr ⟨?_, ih hys⟩
      intro z hz
      rcases (mem_insertByCreatedDesc z x ys).mp hz with rfl | hz2
      · exact not_lt.mp hlt
      · exact hy z hz2

theorem filter_eq_nil_of_head_lt (c : Int) (y : Job) (ys : List Job)
    (h : ∀ z ∈ ys, z.created_at ≤ y.created_at) (hy : y.created_at < c) :
    (y :: ys).filter (fun j => j.created_at = c) = [] := by
  rw [List.filter_eq_nil_iff]
  intro z hz
  rcases List.mem_cons.mp hz with rfl | hz2
  · simp only [decide_eq_true_eq]
    omega
  · have := h z hz2
    simp only [decide_eq_true_eq]
    omega

theorem filter_insertByCreatedDesc_eq (c : Int) (x : Job) (l : List Job)
    (hx : x.created_at = c)
    (hsort : l.Pairwise (fun a b => b.created_at ≤ a.created_at)) :
    (insertByCreatedDesc x l).filter (fun j => j.created_at = c)
      = l.filter (fun j => j.created_at = c) ++ [x] := by
  induction l with
  | nil => simp [insertByCreatedDesc, hx]
  | cons y ys ih =>
    rcases List.pairwise_cons.mp hsort with ⟨hy, hys⟩
    rw [insertByCreatedDesc]
    by_cases hlt : y.created_at < x.created_at
    · rw [if_pos hlt]
      have hnil : (y :: ys).filter (fun j => j.created_at = c) = [] :=
        filter_eq_nil_of_head_lt c y ys hy (hx ▸ hlt)
      rw [List.filter_cons_of_pos (by simp [hx]), hnil]
      rfl
    · rw [if_neg hlt]
      by_cases hyc : y.created_at = c
      · rw [List.filter_cons_of_pos (by simp [hyc]),
          List.filter_cons_of_pos (by simp [hyc]), ih hys]
        rfl
      · rw [List.filter_cons_of_neg (by simp [hyc]),
          List.filter_cons_of_neg (by simp [hyc]), ih hys]

theorem filter_insertByCreatedDesc_ne (c : Int) (x : Job) (l : List Job)
    (hx : x.created_at ≠ c) :
    (insertByCreatedDesc x l).filter (fun j => j.created_at = c)
      = l.filter (fun j => j.created_at = c) := by
  induction l with
  | nil => simp [insertByCreatedDesc, hx]
  | cons y ys ih =>
    rw [insertByCreatedDesc]
    by_cases hlt : y.created_at < x.created_at
    · rw [if_pos hlt, List.filter_cons_of_neg (by simp [hx])]
    · rw [if_neg hlt]
      by_cases hyc : y.created_at = c
      · rw [List.filter_cons_of_pos (by simp [hyc]),
          List.filter_cons_of_pos (by simp [hyc]), ih]
      · rw [List.filter_cons_of_neg (by simp [hyc]),
          List.filter_cons_of_neg (by simp [hyc]), ih]

theorem filter_foldl_insertByCreatedDesc (c : Int) (l : List Job) :
    ∀ acc : List Job, acc.Pairwise (fun a b => b.created_at ≤ a.created_at) →
      (l.foldl (fun acc x => insertByCreatedDesc x acc) acc).filter
          (fun j => j.created_at = c)
        = acc.filter (fun j => j.created_at = c)
          ++ l.filter (fun j => j.created_at = c) := by
  induction l with
  | nil => intro acc _; simp
  | cons x xs ih =>
    intro acc hacc
    rw [List.foldl_cons,
      ih (insertByCreatedDesc x acc) (pairwise_insertByCreatedDesc x acc hacc)]
    by_cases hxc : x.created_at = c
    · rw [filter_insertByCreatedDesc_eq c x acc hxc hacc,
        List.filter_cons_of_pos (by simp [hxc])]
      simp
    · rw [filter_insertByCreatedDesc_ne c x acc hxc,
        List.filter_cons_of_neg (by simp [hxc])]

theorem sortByCreatedDesc_stable (c : Int) (l : List Job) :
    (sortByCreatedDesc l).filter (fun j => j.created_at = c)
      = l.filter (fun j => j.created_at = c) := by
  have h := filter_foldl_insertByCreatedDesc c l [] (by simp)
  simpa [sortByCreatedDesc] using h

theorem length_insertByCreatedDesc (x : Job) (l : List Job) :
    (insertByCreatedDesc x l).length = l.length + 1 := by
  induction l with
  | nil => rfl
  | cons y ys ih =>
    rw [insertByCreatedDesc]
    by_cases h : y.created_at < x.created_at
    · rw [if_pos h]; rfl
    · rw [if_neg h]; simp [ih]

theorem length_sortByCreatedDesc (l : List Job) :
    (sortByCreatedDesc l).length = l.length := by
  suffices h : ∀ acc : List Job,
      (l.foldl (fun acc x => insertByCreatedDesc x acc) acc).length
        = acc.length + l.length by
    simpa [sortByCreatedDesc] using h []
  induction l with
  | nil => intro acc; simp
  | cons x xs ih =>
    intro acc
    rw [List.foldl_cons, ih, length_insertByCreatedDesc]
    simp only [List.length_cons]
    omega

/-! ## Claim theorems -/

/-- Claim C2: for the multi-queue jobs aggregation, partitions returning
records with creation timestamps [5,3,1] and [4,2] merged with limit 3 and
offset 0 yield exactly the records with timestamps [5,4,3] in that order:
concatenation, descending sort by created_at, then the slice
[offset, offset + limit). -/
theorem useJobs_merge_two_partitions :
    (mergeQueuePages 0 3
      [⟨[⟨"j5", 5, none⟩, ⟨"j3", 3, none⟩, ⟨"j1", 1, none⟩], 3⟩,
       ⟨[⟨"j4", 4, none⟩, ⟨"j2", 2, none⟩], 2⟩]).data
      = [⟨"j5", 5, none⟩, ⟨"j4", 4, none⟩, ⟨"j3", 3, none⟩] := by decide

/-- Claim C3: for three partitions reporting totals 2, 1, 0 and returning
2, 1, 0 records, merged with limit 10 and offset 0, the aggregate total is the
sum 3 of the reported partition totals, has_more is false, and the merged data
has length 3. -/
theorem useJobs_aggregate_total_sum :
    (mergeQueuePages 0 10
      [⟨[⟨"a1", 9, none⟩, ⟨"a2", 8, none⟩], 2⟩,
       ⟨[⟨"b1", 7, none⟩], 1⟩, ⟨[], 0⟩]).total = 3
    ∧ (mergeQueuePages 0 10
      [⟨[⟨"a1", 9, none⟩, ⟨"a2", 8, none⟩], 2⟩,
       ⟨[⟨"b1", 7, none⟩], 1⟩, ⟨[], 0⟩]).has_more = false
    ∧ (mergeQueuePages 0 10
      [⟨[⟨"a1", 9, none⟩, ⟨"a2", 8, none⟩], 2⟩,
       ⟨[⟨"b1", 7, none⟩], 1⟩, ⟨[], 0⟩]).data.length = 3 := by decide

/-- Claim C4: the multi-queue jobs aggregation is fail-fast: whenever at
least one partition request rejected, the whole aggregate query rejects and no
merged page (in particular no partial page built from the successful
partitions) is produced. -/
theorem multiQueueQuery_failFast (offset limit : Nat)
    (outcomes : List (Except FetchError PartitionResponse)) (e : FetchError)
    (h : Except.error e ∈ outcomes) :
    ∃ e2, multiQueueQuery offset limit outcomes = Except.error e2 := by
  obtain ⟨e2, he⟩ := promiseAll_error_of_mem outcomes e h
  exact ⟨e2, by simp [multiQueueQuery, he, Except.map]⟩

/-- Witness for C4 at a concrete input: one successful and one failed
partition make the whole aggregate fail. -/
theorem multiQueueQuery_failFast_witness :
    ∃ e2, multiQueueQuery 0 10
      [Except.ok ⟨[⟨"a1", 9, none⟩], 1⟩,
       Except.error (FetchError.transport "boom")]
      = Except.error e2 :=
  multiQueueQuery_failFast 0 10 _ (FetchError.transport "boom")
    (List.Mem.tail _ (List.Mem.head _))

/-- Claim C5 (counterexample): an explicitly-empty status filter and an
absent status filter do NOT derive the same query key — useJobs keys on the
raw params object, whose serialization keeps an empty-string field, so the
two requests map to different cache entries. -/
theorem keyOf_empty_string_distinct :
    keyOf "jobs" [("status", JsVal.str "")] ≠ keyOf "jobs" [] := by decide

/-- Claim C5 (amended): a field whose value is undefined derives the same
query key as that field being absent, anywhere in the parameter object —
but an explicitly-empty string filter is not normalised away and yields a
distinct key. -/
theorem keyOf_undef_field_absent (tag fieldName : String) (l1 l2 : JsObj) :
    keyOf tag (l1 ++ (fieldName, JsVal.undefined) :: l2) = keyOf tag (l1 ++ l2) := by
  simp [keyOf, canonicalFields, List.filter_append, List.filter_cons]

/-- Claim C6 (counterexample): the merge orders equal-timestamp records by
arrival order, not by any stable secondary key of the records: the same two
records with equal created_at come back in both orders depending only on the
order in which the partition returned them, so pagination order is not stable
across refetches that return identical timestamps. -/
theorem merge_no_tiebreak_counterexample :
    (⟨"a", 5, none⟩ : Job).created_at = (⟨"b", 5, none⟩ : Job).created_at
    ∧ (mergeQueuePages 0 2 [⟨[⟨"a", 5, none⟩, ⟨"b", 5, none⟩], 2⟩]).data
        = [⟨"a", 5, none⟩, ⟨"b", 5, none⟩]
    ∧ (mergeQueuePages 0 2 [⟨[⟨"b", 5, none⟩, ⟨"a", 5, none⟩], 2⟩]).data
        = [⟨"b", 5, none⟩, ⟨"a", 5, none⟩] := by decide

/-- Claim C6 (amended): in every multi-queue merge, equal-timestamp records
are kept in concatenation (arrival) order — for every timestamp value, the
merged descending ordering restricted to the records carrying that timestamp
is exactly the concatenation of the partition payloads restricted to it (the
comparator reads only created_at and the sort is stable, so no secondary key
of the records is involved), and the returned page is the slice of that
ordering. -/
theorem merge_ties_keep_arrival_order (offset limit : Nat) (c : Int)
    (rs : List PartitionResponse) :
    (sortByCreatedDesc ((rs.map PartitionResponse.data).flatten)).filter
        (fun j => j.created_at = c)
      = ((rs.map PartitionResponse.data).flatten).filter
          (fun j => j.created_at = c)
    ∧ (mergeQueuePages offset limit rs).data
        = ((sortByCreatedDesc ((rs.map PartitionResponse.data).flatten)).drop
            offset).take limit :=
  ⟨sortByCreatedDesc_stable c _, rfl⟩

/-- Claim C7 (counterexample): has_more never falls back to the summed
partition totals: two partitions each reporting total 100 but returning five
records each, with limit 10 and offset 0, produce has_more = false even
though offset + limit (10) is far below the aggregate total (200). -/
theorem merge_hasMore_no_total_fallback :
    (mergeQueuePages 0 10
      [⟨[⟨"a1", 10, none⟩, ⟨"a2", 9, none⟩, ⟨"a3", 8, none⟩,
         ⟨"a4", 7, none⟩, ⟨"a5", 6, none⟩], 100⟩,
       ⟨[⟨"b1", 5, none⟩, ⟨"b2", 4, none⟩, ⟨"b3", 3, none⟩,
         ⟨"b4", 2, none⟩, ⟨"b5", 1, none⟩], 100⟩]).has_more = false
    ∧ ((0 : Int) + 10 <
        (mergeQueuePages 0 10
          [⟨[⟨"a1", 10, none⟩, ⟨"a2", 9, none⟩, ⟨"a3", 8, none⟩,
             ⟨"a4", 7, none⟩, ⟨"a5", 6, none⟩], 100⟩,
           ⟨[⟨"b1", 5, none⟩, ⟨"b2", 4, none⟩, ⟨"b3", 3, none⟩,
             ⟨"b4", 2, none⟩, ⟨"b5", 1, none⟩], 100⟩]).total) := by decide

/-- Claim C7 (amended): has_more equals offset + limit < merged record count
(the number of records actually returned across all partitions); the summed
partition totals are never consulted. -/
theorem merge_hasMore_merged_length_only (offset limit : Nat)
    (rs : List PartitionResponse) :
    (mergeQueuePages offset limit rs).has_more
      = decide (offset + limit < (rs.map (fun r => r.data.length)).sum) := by
  simp only [mergeQueuePages, length_sortByCreatedDesc, List.length_flatten,
    List.map_map]
  rfl

/-- Claim C8: a jobs query whose partition set is empty (no queue filter, or
a queue filter with no truthy names) issues exactly one physical request
carrying no queue parameter, identical to the one the fully unfiltered query
issues — not an empty aggregate. -/
theorem useJobs_zero_partitions (p : JobsQueryParams)
    (h : effectiveQueues p = []) :
    useJobsRequests p = [⟨"/jobs", transformQueryParams p none⟩]
    ∧ useJobsRequests p
        = useJobsRequests { p with queue := QueueFilter.noFilter }
    ∧ ∀ v, ("queue", v) ∉ transformQueryParams p none := by
  have h1 : useJobsRequests p = [⟨"/jobs", transformQueryParams p none⟩] := by
    simp only [useJobsRequests, h]
  refine ⟨h1, ?_, ?_⟩
  · rw [h1]; rfl
  · intro v hv
    unfold transformQueryParams at hv
    split_ifs at hv <;> simp_all

/-- Witness for C8 at a concrete input: a queue filter holding only an empty
string has an empty partition set and routes to the single unfiltered
request. -/
theorem useJobs_zero_partitions_witness :
    useJobsRequests
        { limit := 25, offset := 0, queue := QueueFilter.multi [""] }
      = [⟨"/jobs",
          transformQueryParams
            { limit := 25, offset := 0, queue := QueueFilter.multi [""] }
            none⟩]
    ∧ useJobsRequests
        { limit := 25, offset := 0, queue := QueueFilter.multi [""] }
      = useJobsRequests
          { limit := 25, offset := 0, queue := QueueFilter.noFilter } :=
  ⟨(useJobs_zero_partitions
      { limit := 25, offset := 0, queue := QueueFilter.multi [""] }
      (by decide)).1,
   (useJobs_zero_partitions
      { limit := 25, offset := 0, queue := QueueFilter.multi [""] }
      (by decide)).2.1⟩

/-- Claim C9: the cancel-job mutation invalidates exactly the statically
declared keys — the jobs list tag, the specific job's detail key, and the
job-counts tag — and only when its own request resolved successfully; on
failure nothing is invalidated and the error is surfaced unchanged. -/
theorem useCancelJob_invalidation {α : Type} (jobId : String)
    (outcome : Except FetchError α) :
    (∀ b, outcome = Except.ok b →
        runCancelJob outcome jobId
          = (Except.ok b, [["jobs"], ["jobs", jobId], ["job-counts"]]))
    ∧ (∀ e, outcome = Except.error e →
        runCancelJob outcome jobId = (Except.error e, [])) := by
  constructor
  · intro b hb
    subst hb
    rfl
  · intro e he
    subst he
    rfl

/-- Witness for C9 at concrete inputs: a resolved cancel for job 42
invalidates the three declared keys, a rejected one invalidates nothing. -/
theorem useCancelJob_invalidation_witness :
    runCancelJob (Except.ok (0 : Nat)) "42"
      = (Except.ok 0, [["jobs"], ["jobs", "42"], ["job-counts"]])
    ∧ runCancelJob (Except.error (FetchError.transport "down") : Except FetchError Nat) "42"
      = (Except.error (FetchError.transport "down"), []) :=
  ⟨(useCancelJob_invalidation "42" (Except.ok 0)).1 0 rfl,
   (useCancelJob_invalidation "42"
      (Except.error (FetchError.transport "down") : Except FetchError Nat)).2
      (FetchError.transport "down") rfl⟩

/-- Claim C10: for every parameter set and every backend envelope, the queues
list query returns has_more = false and a total equal to the length of the
returned data array, and its result does not depend on the total or has_more
the backend reported — the queue list never signals a further page. -/
theorem useQueues_never_more_pages (po pl : Option Nat)
    (resp : QueuesEnvelope) :
    (useQueuesQueryFn po pl resp).has_more = false
    ∧ (useQueuesQueryFn po pl resp).total
        = (useQueuesQueryFn po pl resp).data.length
    ∧ ∀ (t : Int) (hm : Bool),
        useQueuesQueryFn po pl resp
          = useQueuesQueryFn po pl { resp with total := t, has_more := hm } :=
  ⟨rfl, rfl, fun _ _ => rfl⟩

/-- Claim C1: last request wins per key: with attempt 1 and attempt 2 both in
flight and attempt 1 resolving after attempt 2, the committed data equals
attempt 2's result; and in general a result carrying an older sequence number
than the entry's current sequence is discarded. -/
theorem cache_last_request_wins {α : Type} (e : CacheEntry α) (r1 r2 : α) :
    (commit (commit (startFetch (startFetch e))
        (startFetch (startFetch e)).sequence r2)
      (startFetch e).sequence r1).data = some r2
    ∧ ∀ (e2 : CacheEntry α) (s : Nat) (r : α), s < e2.sequence →
        commit e2 s r = e2 := by
  constructor
  · have h2 : e.sequence + 1 ≠ e.sequence + 1 + 1 := by omega
    simp [commit, startFetch, h2]
  · intro e2 s r hs
    simp [commit, Nat.ne_of_lt hs]

/-- Witness for C1 at a concrete input: a fresh entry, attempt 1 carrying 3
and attempt 2 carrying 7 with attempt 1 resolving last, commits 7; and a
sequence-2 result against a sequence-5 entry is discarded. -/
theorem cache_last_request_wins_witness :
    (commit (commit (startFetch (startFetch (⟨0, none⟩ : CacheEntry Nat)))
        (startFetch (startFetch (⟨0, none⟩ : CacheEntry Nat))).sequence 7)
      (startFetch (⟨0, none⟩ : CacheEntry Nat)).sequence 3).data = some 7
    ∧ commit (⟨5, some 4⟩ : CacheEntry Nat) 2 9 = ⟨5, some 4⟩ :=
  ⟨(cache_last_request_wins (⟨0, none⟩ : CacheEntry Nat) 3 7).1,
   (cache_last_request_wins (⟨0, none⟩ : CacheEntry Nat) 3 7).2
      ⟨5, some 4⟩ 2 9 (by decide)⟩

end RqManager
